import Mathlib

/-!
Shallow embedding of the hyperfine-tensor extraction and field synthesis
pipeline of `Muon-site-summary.ipynb` (function `get_hyperfine`).

The extractor scans the lines of a VASP OUTCAR report for three literal
markers, reads fixed-format blocks after the contact and dipolar headers,
and fills per-site scalar contacts and 3x3 dipolar tensors.  The
synthesizer combines the probe contact scalar of the site and dipolar tensor
(each scaled by the muon gyromagnetic ratio) into one tensor, takes half
of its third row as the effective field, and derives its magnitude and
angle with the crystallographic c axis.

Numeric literals parsed from the report are modelled exactly as rationals;
the real-valued synthesis (square root, arccos, pi) lives in `ℝ`.  The
IEEE NaN that Python produces on `0.0 / 0.0` (zero field magnitude) is
modelled by an `Option ℝ` angle whose `none` case is that NaN.
-/

attribute [local semireducible] Rat.mul Rat.inv Rat.add Rat.sub

namespace Muon

/-- Python `str.split()` worker over characters: split on whitespace runs,
dropping empty pieces; `acc` holds the current piece reversed. -/
def splitWsAux : List Char → List Char → List (List Char)
  | [], acc => if acc.isEmpty then [] else [acc.reverse]
  | c :: cs, acc =>
    if c.isWhitespace then
      if acc.isEmpty then splitWsAux cs [] else acc.reverse :: splitWsAux cs []
    else splitWsAux cs (c :: acc)

/-- Python `line.split()`: whitespace-separated tokens of a line. -/
def pySplit (s : String) : List (List Char) := splitWsAux s.toList []

/-- Plain list infix test, used to model `re.search` with a literal pattern. -/
def isSubChain (pat : List Char) : List Char → Bool
  | [] => pat.isEmpty
  | c :: cs => pat.isPrefixOf (c :: cs) || isSubChain pat cs

/-- Models `re.compile(pat).search(line)` for the literal (escaped) patterns of the
source: substring containment. -/
def searchLit (pat : String) (line : String) : Bool :=
  isSubChain pat.toList line.toList

/-- Literal pattern of `re_totalspin` in the source. -/
def totalspinMarker : String := "Total magnetic moment S"

/-- Literal pattern of `re_contact` in the source (the regex escapes make
every character literal). -/
def contactMarker : String :=
  "Fermi contact (isotropic) hyperfine coupling parameter (MHz)"

/-- Literal pattern of `re_dipole` in the source. -/
def dipoleMarker : String := "Dipolar hyperfine coupling parameters (MHz)"

/-- Reads a run of decimal digits: accumulated value, number of digits read,
remaining characters. -/
def readDigits : List Char → ℕ → ℕ → ℕ × ℕ × List Char
  | [], acc, k => (acc, k, [])
  | c :: cs, acc, k =>
    if c.isDigit then readDigits cs (10 * acc + (c.toNat - 48)) (k + 1)
    else (acc, k, c :: cs)

/-- Reads an optional leading sign. -/
def readSign : List Char → ℤ × List Char
  | '-' :: cs => (-1, cs)
  | '+' :: cs => (1, cs)
  | cs => (1, cs)

/-- Exponent digits after `e`/`E`: optional sign then at least one digit,
consuming the whole remainder. -/
def parseExpVal (cs : List Char) : Option ℤ :=
  let (sg, cs₁) := readSign cs
  let (v, k, cs₂) := readDigits cs₁ 0 0
  if k = 0 ∨ cs₂ ≠ [] then none else some (sg * v)

/-- Optional exponent part closing a float token. -/
def parseExp : List Char → Option ℤ
  | [] => some 0
  | 'e' :: cs => parseExpVal cs
  | 'E' :: cs => parseExpVal cs
  | _ => none

/-- Python `float()` on a whitespace-free token, exact over `ℚ`: optional
sign, digits with an optional point, optional exponent.  The special
spellings (`inf`, `nan`, digit underscores) do not occur in OUTCAR data and
are not modelled. -/
def parseFloat (cs : List Char) : Option ℚ :=
  let (sg, cs₁) := readSign cs
  let (ip, nip, cs₂) := readDigits cs₁ 0 0
  match cs₂ with
  | '.' :: cs₃ =>
    let (fp, nfp, cs₄) := readDigits cs₃ 0 0
    if nip + nfp = 0 then none
    else (parseExp cs₄).map fun e =>
      (sg : ℚ) * ((ip : ℚ) + (fp : ℚ) / (10 : ℚ) ^ nfp) * (10 : ℚ) ^ e
  | rest =>
    if nip = 0 then none
    else (parseExp rest).map fun e => (sg : ℚ) * (ip : ℚ) * (10 : ℚ) ^ e

/-- Per-site 3x3 dipolar tensor, exact rational entries. -/
abbrev Tensor := Fin 3 → Fin 3 → ℚ

/-- A freshly allocated `np.zeros((3, 3))` slot. -/
def zeroTensor : Tensor := fun _ _ => 0

/-- Net effect of the nine assignments the source performs on the tensor of one site: diagonal `(xx, yy, zz)`, both `(0,1)` and `(1,0)` from `xy`, both
`(0,2)` and `(2,0)` from `xz`, both `(1,2)` and `(2,1)` from `yz`. -/
def mkTensor (xx yy zz xy xz yz : ℚ) : Tensor :=
  ![![xx, xy, xz], ![xy, yy, yz], ![xz, yz, zz]]

/-- Scratch state of one parse pass: `contacts` and `dipole_tensors` arrays
plus the local variable `totalS` (unbound until its marker is seen). -/
structure ScanState where
  contacts : List ℚ
  dipoles : List Tensor
  totalS : Option ℚ

instance : DecidableEq ScanState := fun a b =>
  decidable_of_iff
    (a.contacts = b.contacts ∧ a.dipoles = b.dipoles ∧ a.totalS = b.totalS)
    (by cases a; cases b; simp)

instance {ε α : Type} [DecidableEq ε] [DecidableEq α] :
    DecidableEq (Except ε α) := fun a b =>
  match a, b with
  | .ok x, .ok y => decidable_of_iff (x = y) (by simp)
  | .error e, .error f => decidable_of_iff (e = f) (by simp)
  | .ok _, .error _ => isFalse (by simp)
  | .error _, .ok _ => isFalse (by simp)

/-- Zero-initialised state: `np.zeros(natoms)` and `np.zeros((natoms,3,3))`. -/
def initState (natoms : ℕ) : ScanState :=
  ⟨List.replicate natoms 0, List.replicate natoms zeroTensor, none⟩

/-- One `next(f)` per skipped line; running off the end of the file raises
`StopIteration`. -/
def skipLines : ℕ → List String → Except String (List String)
  | 0, ls => .ok ls
  | _ + 1, [] => .error ("StopIteration")
  | n + 1, _ :: ls => skipLines n ls

/-- Models `float(next(f).split()[-1])`: last token of a contact data line;
`[-1]` on an empty line raises `IndexError`, a non-numeric token raises
`ValueError`. -/
def parseContactLine (l : String) : Except String ℚ :=
  match (pySplit l).getLast? with
  | none => .error ("IndexError")
  | some t =>
    match parseFloat t with
    | none => .error ("ValueError")
    | some v => .ok v

/-- The `for i in range(natoms)` loop of the contact block: reads one line
per site and stores its value at index `i`. -/
def readContactLines : ℕ → ℕ → List String → List ℚ →
    Except String (List ℚ × List String)
  | 0, _, ls, cs => .ok (cs, ls)
  | _ + 1, _, [], _ => .error ("StopIteration")
  | n + 1, i, l :: ls, cs =>
    match parseContactLine l with
    | .error e => .error e
    | .ok v => readContactLines n (i + 1) ls (cs.set i v)

/-- Models `np.array(next(f).split()).astype(float)` followed by the nine indexed
assignments: every token must parse as a number and positions 1..6 (after
the site-identifier token) must exist. -/
def parseDipLine (l : String) : Except String Tensor :=
  match (pySplit l).mapM parseFloat with
  | none => .error ("ValueError")
  | some xs =>
    if h : 7 ≤ xs.length then
      .ok (mkTensor (xs.get ⟨1, by omega⟩) (xs.get ⟨2, by omega⟩)
        (xs.get ⟨3, by omega⟩) (xs.get ⟨4, by omega⟩)
        (xs.get ⟨5, by omega⟩) (xs.get ⟨6, by omega⟩))
    else .error ("IndexError")

/-- The `for i in range(natoms)` loop of the dipolar block. -/
def readDipoleLines : ℕ → ℕ → List String → List Tensor →
    Except String (List Tensor × List String)
  | 0, _, ls, ds => .ok (ds, ls)
  | _ + 1, _, [], _ => .error ("StopIteration")
  | n + 1, i, l :: ls, ds =>
    match parseDipLine l with
    | .error e => .error e
    | .ok T => readDipoleLines n (i + 1) ls (ds.set i T)

/-- Models `if re_totalspin.search(line): totalS = float(line.split()[-1])`. -/
def stepTotalS (line : String) (st : ScanState) : Except String ScanState :=
  if searchLit totalspinMarker line then
    match (pySplit line).getLast? with
    | none => .error ("IndexError")
    | some t =>
      match parseFloat t with
      | none => .error ("ValueError")
      | some v => .ok { st with totalS := some v }
  else .ok st

/-- The contact-header branch: three `next(f)` skips (separator, column
header, separator) then `natoms` data lines. -/
def handleContact (natoms : ℕ) (line : String) (ls : List String)
    (st : ScanState) : Except String (List String × ScanState) :=
  if searchLit contactMarker line then
    match skipLines 3 ls with
    | .error e => .error e
    | .ok ls₁ =>
      match readContactLines natoms 0 ls₁ st.contacts with
      | .error e => .error e
      | .ok (cs, ls₂) => .ok (ls₂, { st with contacts := cs })
  else .ok (ls, st)

/-- The dipolar-header branch: three `next(f)` skips then `natoms` data
lines. -/
def handleDipole (natoms : ℕ) (line : String) (ls : List String)
    (st : ScanState) : Except String (List String × ScanState) :=
  if searchLit dipoleMarker line then
    match skipLines 3 ls with
    | .error e => .error e
    | .ok ls₁ =>
      match readDipoleLines natoms 0 ls₁ st.dipoles with
      | .error e => .error e
      | .ok (ds, ls₂) => .ok (ls₂, { st with dipoles := ds })
  else .ok (ls, st)

/-- Body of one `for line in f` iteration: the three `if` statements run in
sequence on the same line, each block consuming further lines from the same
file iterator. -/
def scanStep (natoms : ℕ) (line : String) (rest : List String)
    (st : ScanState) : Except String (List String × ScanState) := do
  let st₁ ← stepTotalS line st
  let (rest₁, st₂) ← handleContact natoms line rest st₁
  handleDipole natoms line rest₁ st₂

/-- Fuelled scan loop.  The fuel only serves to make the recursion
structural: the loop consumes at least the current line per iteration, so
with fuel equal to the number of lines the `"fuel"` branch is unreachable
(see `scanGo_fuel_irrel` and `scanLines_cons`). -/
def scanGo (natoms : ℕ) : ℕ → List String → ScanState →
    Except String ScanState
  | _, [], st => .ok st
  | 0, _ :: _, _ => .error ("fuel")
  | fuel + 1, line :: rest, st =>
    match scanStep natoms line rest st with
    | .error e => .error e
    | .ok (rest', st') => scanGo natoms fuel rest' st'

/-- The whole `with open(outcar) as f: for line in f: ...` parse pass. -/
def scanLines (natoms : ℕ) (ls : List String) (st : ScanState) :
    Except String ScanState :=
  scanGo natoms ls.length ls st

/-- Python/NumPy indexing `l[i]` with negative indices counting from the
end; out-of-range access raises `IndexError`. -/
def pyGet {α : Type} (l : List α) (i : ℤ) : Except String α :=
  let j : ℤ := if i < 0 then i + l.length else i
  if h : 0 ≤ j ∧ j < l.length then .ok (l.get ⟨j.toNat, by omega⟩)
  else .error ("IndexError")

/-- Constant `gamma_mu = 851.616 / (2*np.pi)`, the muon gyromagnetic ratio in
MHz/T used by the source. -/
noncomputable def gamma_mu : ℝ := 851.616 / (2 * Real.pi)

/-- The `res` dictionary returned by `get_hyperfine` (keys in source
order).  `theta` is `none` exactly when the division `dot/B_magnitude`
is `0.0/0.0`, the case where the Python code silently produces NaN. -/
structure HyperfineResult where
  A_c : ℝ
  A_dip : Fin 3 → Fin 3 → ℝ
  A : Fin 3 → Fin 3 → ℝ
  Bfield : Fin 3 → ℝ
  B_magnitude : ℝ
  theta : Option ℝ

/-- Identity matrix `np.eye(3)`. -/
def eye3 : Fin 3 → Fin 3 → ℝ := fun i j => if i = j then 1 else 0

/-- Vector `z = np.array([0,0,1])`, the reference c-axis direction. -/
def zAxis : Fin 3 → ℝ := ![0, 0, 1]

/-- The computation the source performs after the parse loop, for probe
values `c = contacts[muon_index]` and `D = dipole_tensors[muon_index]`
and gyromagnetic ratio `γ`:
`A_c = c*γ`, `A_dip = D*γ`, `A = A_dip + eye(3)*A_c`,
`Bfield = 0.5*A[2]`, `B_magnitude = norm(Bfield)`,
`theta = 180*arccos(Bfield.dot(z)/B_magnitude)/pi` folded by
`180 - theta` when above `90`; `theta` is NaN (`none`) when
`B_magnitude` is zero. -/
noncomputable def synthRecord (c : ℚ) (D : Tensor) (γ : ℝ) :
    HyperfineResult :=
  let A_c : ℝ := (c : ℝ) * γ
  let A_dip : Fin 3 → Fin 3 → ℝ := fun i j => (D i j : ℝ) * γ
  let A : Fin 3 → Fin 3 → ℝ := fun i j => A_dip i j + eye3 i j * A_c
  let Bfield : Fin 3 → ℝ := fun j => 0.5 * A 2 j
  let B_magnitude : ℝ := Real.sqrt (∑ j, Bfield j ^ 2)
  let theta : Option ℝ :=
    if B_magnitude = 0 then none
    else
      let t := 180 * Real.arccos ((∑ j, Bfield j * zAxis j) / B_magnitude) /
        Real.pi
      if t > 90 then some (180 - t) else some t
  ⟨A_c, A_dip, A, Bfield, B_magnitude, theta⟩

/-- The field-synthesis tail of `get_hyperfine`: index the per-site arrays
at `muon_index` (Python indexing) and build the result record.  The
gyromagnetic ratio is abstracted as `γ` (the source fixes it to
`gamma_mu`). -/
noncomputable def synthesize (contacts : List ℚ) (dipole_tensors : List Tensor)
    (muon_index : ℤ) (γ : ℝ) : Except String HyperfineResult :=
  match pyGet contacts muon_index, pyGet dipole_tensors muon_index with
  | .error e, _ => .error e
  | .ok _, .error e => .error e
  | .ok c, .ok D => .ok (synthRecord c D γ)

/-- The whole `get_hyperfine(outcar, natoms, muon_index)`: parse pass over
the lines of the report, then synthesis at the probe site with `gamma_mu`
(the source defaults `muon_index` to `-1`, the last site). -/
noncomputable def get_hyperfine (outcar : List String) (natoms : ℕ)
    (muon_index : ℤ) : Except String HyperfineResult :=
  match scanLines natoms outcar (initState natoms) with
  | .error e => .error e
  | .ok st => synthesize st.contacts st.dipoles muon_index gamma_mu

/-- Value of `theta` before folding, read off a result record: degrees of the angle
between the field vector and the c axis. -/
noncomputable def theta0 (r : HyperfineResult) : ℝ :=
  180 * Real.arccos ((∑ j, r.Bfield j * zAxis j) / r.B_magnitude) / Real.pi

/-- True of a line matching none of the three markers. -/
def markerFree (l : String) : Bool :=
  !searchLit totalspinMarker l && !searchLit contactMarker l &&
    !searchLit dipoleMarker l

/-- Writes the values `vs` into `cs` at consecutive indices starting at
`k`: the net effect of a block-reading loop on its per-site array. -/
def setAll {α : Type} : ℕ → List α → List α → List α
  | _, [], cs => cs
  | k, v :: vs, cs => setAll (k + 1) vs (cs.set k v)

/-- All-zero fallback record (only used to totalise projections of an
`Except` result; every theorem using it also proves the `.ok` case). -/
noncomputable def nullRecord : HyperfineResult :=
  ⟨0, fun _ _ => 0, fun _ _ => 0, fun _ => 0, 0, none⟩

/-- Projection of an extraction-plus-synthesis result to its record. -/
noncomputable def resultOf (x : Except String HyperfineResult) :
    HyperfineResult :=
  match x with
  | .ok r => r
  | .error _ => nullRecord

/-- Report realising the literal end-to-end scenario of the spec: one
site whose contact value is `-1.355` and whose dipolar row is
`(283.547, 167.119, -450.667, -28.734, -15.587, 58.553)`. -/
def c1report : List String :=
  [" Fermi contact (isotropic) hyperfine coupling parameter (MHz)",
   " -------------------------------------------------------------",
   "  ion      A_pw      A_1PS     A_1AE     A_1c      A_tot",
   " -------------------------------------------------------------",
   "   1      0.000     0.000     0.000     0.000    -1.355",
   " Dipolar hyperfine coupling parameters (MHz)",
   " -------------------------------------------------------------",
   "  ion      A_xx      A_yy      A_zz      A_xy      A_xz      A_yz",
   " -------------------------------------------------------------",
   "   1   283.547   167.119  -450.667   -28.734   -15.587    58.553"]

/-- The dipolar tensor parsed from `c1report`. -/
def c1T : Tensor :=
  mkTensor (283547/1000) (167119/1000) (-450667/1000) (-28734/1000)
    (-15587/1000) (58553/1000)

/-- The record produced by `get_hyperfine` on the scenario report. -/
noncomputable def c1r : HyperfineResult :=
  resultOf (get_hyperfine c1report 1 (-1))

/-- Sum of squares of `2000 * Bfield / gamma_mu` on the scenario input:
`15587^2 + 58553^2 + 452022^2`. -/
def c1N : ℕ := 207995296862

/-- Contact-block report whose header is followed by only three lines.
Under the two-skip reading of the spec it still holds one data line for its
single site (value `5`); the three-skip reading of the code exhausts the
file instead. -/
def c3reportShort : List String :=
  [" Fermi contact (isotropic) hyperfine coupling parameter (MHz)",
   " ----------------",
   "  ion  A_tot",
   "   1   5.0"]

/-- The same block with the full three formatting lines the code skips. -/
def c3reportFull : List String :=
  [" Fermi contact (isotropic) hyperfine coupling parameter (MHz)",
   " ----------------",
   "  ion  A_tot",
   " ----------------",
   "   1   5.0"]

/-- A report whose total-spin line carries the value `3.0`. -/
def c4report1 : List String :=
  [" number of electron      64.0  Total magnetic moment S=   3.0"]

/-- The same report with total-spin value `7.0` instead. -/
def c4report2 : List String :=
  [" number of electron      64.0  Total magnetic moment S=   7.0"]

/-- A well-formed one-site report whose contact value is `0.0`, making
the synthesized field vector and its magnitude exactly zero. -/
def c9report : List String :=
  [" Fermi contact (isotropic) hyperfine coupling parameter (MHz)",
   " -------------------------------------------------------------",
   "  ion      A_pw      A_1PS     A_1AE     A_1c      A_tot",
   " -------------------------------------------------------------",
   "   1      0.000     0.000     0.000     0.000     0.000"]

/-- Dipolar block whose data line starts with a non-numeric site label:
`astype(float)` must reject it. -/
def c10badReport : List String :=
  [" Dipolar hyperfine coupling parameters (MHz)",
   " ----------------",
   "  ion  A_xx  A_yy  A_zz  A_xy  A_xz  A_yz",
   " ----------------",
   " ion   1.0   2.0   3.0   4.0   5.0   6.0"]

/-- Dipolar block whose data line has eight numeric tokens: the tensor
components must come from positions 1..6, not from the last six. -/
def c10extraReport : List String :=
  [" Dipolar hyperfine coupling parameters (MHz)",
   " ----------------",
   "  ion  A_xx  A_yy  A_zz  A_xy  A_xz  A_yz",
   " ----------------",
   " 0 1 2 3 4 5 6 7"]

theorem skipLines_ok : ∀ (n : ℕ) (ls ls' : List String),
    skipLines n ls = .ok ls' → ls' = ls.drop n ∧ n ≤ ls.length := by
  intro n
  induction n with
  | zero =>
    intro ls ls' h
    simp only [skipLines] at h
    cases h
    simp
  | succ n ih =>
    intro ls ls' h
    cases ls with
    | nil => simp [skipLines] at h
    | cons a ls =>
      simp only [skipLines] at h
      obtain ⟨h1, h2⟩ := ih ls ls' h
      subst h1
      refine ⟨by simp, by simp; omega⟩

theorem readContactLines_suffix : ∀ (n k : ℕ) (ls : List String)
    (cs cs' : List ℚ) (ls' : List String),
    readContactLines n k ls cs = .ok (cs', ls') → ls' <:+ ls := by
  intro n
  induction n with
  | zero =>
    intro k ls cs cs' ls' h
    simp only [readContactLines] at h
    cases h
    exact List.suffix_refl _
  | succ n ih =>
    intro k ls cs cs' ls' h
    cases ls with
    | nil => simp [readContactLines] at h
    | cons l ls =>
      cases hp : parseContactLine l with
      | error e => simp [readContactLines, hp] at h
      | ok v =>
        simp only [readContactLines, hp] at h
        exact (ih _ _ _ _ _ h).trans (List.suffix_cons _ _)

theorem readDipoleLines_suffix : ∀ (n k : ℕ) (ls : List String)
    (ds ds' : List Tensor) (ls' : List String),
    readDipoleLines n k ls ds = .ok (ds', ls') → ls' <:+ ls := by
  intro n
  induction n with
  | zero =>
    intro k ls ds ds' ls' h
    simp only [readDipoleLines] at h
    cases h
    exact List.suffix_refl _
  | succ n ih =>
    intro k ls ds ds' ls' h
    cases ls with
    | nil => simp [readDipoleLines] at h
    | cons l ls =>
      cases hp : parseDipLine l with
      | error e => simp [readDipoleLines, hp] at h
      | ok T =>
        simp only [readDipoleLines, hp] at h
        exact (ih _ _ _ _ _ h).trans (List.suffix_cons _ _)

theorem handleContact_suffix {natoms : ℕ} {line : String} {ls : List String}
    {st : ScanState} {ls' : List String} {st' : ScanState}
    (h : handleContact natoms line ls st = .ok (ls', st')) : ls' <:+ ls := by
  unfold handleContact at h
  by_cases hm : searchLit contactMarker line
  · rw [if_pos hm] at h
    cases hs : skipLines 3 ls with
    | error e => rw [hs] at h; exact absurd h (by simp)
    | ok ls₁ =>
      rw [hs] at h
      dsimp only at h
      cases hr : readContactLines natoms 0 ls₁ st.contacts with
      | error e => rw [hr] at h; exact absurd h (by simp)
      | ok p =>
        obtain ⟨cs, ls₂⟩ := p
        rw [hr] at h
        simp only [Except.ok.injEq, Prod.mk.injEq] at h
        obtain ⟨h1, _⟩ := h
        subst h1
        obtain ⟨hd, _⟩ := skipLines_ok 3 ls ls₁ hs
        subst hd
        exact (readContactLines_suffix _ _ _ _ _ _ hr).trans
          (List.drop_suffix _ _)
  · rw [if_neg hm] at h
    simp only [Except.ok.injEq, Prod.mk.injEq] at h
    obtain ⟨h1, _⟩ := h
    subst h1
    exact List.suffix_refl _

theorem handleDipole_suffix {natoms : ℕ} {line : String} {ls : List String}
    {st : ScanState} {ls' : List String} {st' : ScanState}
    (h : handleDipole natoms line ls st = .ok (ls', st')) : ls' <:+ ls := by
  unfold handleDipole at h
  by_cases hm : searchLit dipoleMarker line
  · rw [if_pos hm] at h
    cases hs : skipLines 3 ls with
    | error e => rw [hs] at h; exact absurd h (by simp)
    | ok ls₁ =>
      rw [hs] at h
      dsimp only at h
      cases hr : readDipoleLines natoms 0 ls₁ st.dipoles with
      | error e => rw [hr] at h; exact absurd h (by simp)
      | ok p =>
        obtain ⟨ds, ls₂⟩ := p
        rw [hr] at h
        simp only [Except.ok.injEq, Prod.mk.injEq] at h
        obtain ⟨h1, _⟩ := h
        subst h1
        obtain ⟨hd, _⟩ := skipLines_ok 3 ls ls₁ hs
        subst hd
        exact (readDipoleLines_suffix _ _ _ _ _ _ hr).trans
          (List.drop_suffix _ _)
  · rw [if_neg hm] at h
    simp only [Except.ok.injEq, Prod.mk.injEq] at h
    obtain ⟨h1, _⟩ := h
    subst h1
    exact List.suffix_refl _

theorem scanStep_suffix {natoms : ℕ} {line : String} {rest : List String}
    {st : ScanState} {rest' : List String} {st' : ScanState}
    (h : scanStep natoms line rest st = .ok (rest', st')) : rest' <:+ rest := by
  unfold scanStep at h
  cases h1 : stepTotalS line st with
  | error e => rw [h1] at h; exact absurd h (by simp [Bind.bind, Except.bind])
  | ok st₁ =>
    rw [h1] at h
    simp only [Bind.bind, Except.bind] at h
    cases h2 : handleContact natoms line rest st₁ with
    | error e => rw [h2] at h; exact absurd h (by simp)
    | ok p =>
      obtain ⟨rest₁, st₂⟩ := p
      rw [h2] at h
      exact (handleDipole_suffix h).trans (handleContact_suffix h2)

theorem scanGo_fuel_irrel (natoms : ℕ) : ∀ (f₁ f₂ : ℕ) (ls : List String)
    (st : ScanState), ls.length ≤ f₁ → ls.length ≤ f₂ →
    scanGo natoms f₁ ls st = scanGo natoms f₂ ls st := by
  intro f₁
  induction f₁ with
  | zero =>
    intro f₂ ls st h1 h2
    have hnil : ls = [] := List.eq_nil_of_length_eq_zero (by omega)
    subst hnil
    cases f₂ <;> rfl
  | succ f ih =>
    intro f₂ ls st h1 h2
    cases ls with
    | nil => cases f₂ <;> rfl
    | cons line rest =>
      cases f₂ with
      | zero => simp at h2
      | succ f₂ =>
        simp only [scanGo]
        cases h : scanStep natoms line rest st with
        | error e => rfl
        | ok p =>
          obtain ⟨rest', st'⟩ := p
          have hlen := List.IsSuffix.length_le (scanStep_suffix h)
          simp only [List.length_cons] at h1 h2
          exact ih f₂ rest' st' (by omega) (by omega)

theorem markerFree_iff {l : String} : markerFree l = true ↔
    searchLit totalspinMarker l = false ∧ searchLit contactMarker l = false ∧
      searchLit dipoleMarker l = false := by
  simp [markerFree, Bool.and_eq_true, Bool.not_eq_true', and_assoc]

theorem stepTotalS_noMarker {line : String}
    (h : searchLit totalspinMarker line = false) (st : ScanState) :
    stepTotalS line st = .ok st := by
  simp [stepTotalS, h]

theorem handleContact_noMarker {line : String}
    (h : searchLit contactMarker line = false) (natoms : ℕ)
    (ls : List String) (st : ScanState) :
    handleContact natoms line ls st = .ok (ls, st) := by
  simp [handleContact, h]

theorem handleDipole_noMarker {line : String}
    (h : searchLit dipoleMarker line = false) (natoms : ℕ)
    (ls : List String) (st : ScanState) :
    handleDipole natoms line ls st = .ok (ls, st) := by
  simp [handleDipole, h]

theorem scanStep_free {line : String} (h : markerFree line = true)
    (natoms : ℕ) (rest : List String) (st : ScanState) :
    scanStep natoms line rest st = .ok (rest, st) := by
  obtain ⟨h1, h2, h3⟩ := markerFree_iff.mp h
  simp [scanStep, stepTotalS_noMarker h1, handleContact_noMarker h2,
    handleDipole_noMarker h3, Bind.bind, Except.bind]

theorem stepTotalS_arrays {line : String} {st st' : ScanState}
    (h : stepTotalS line st = .ok st') :
    st'.contacts = st.contacts ∧ st'.dipoles = st.dipoles := by
  unfold stepTotalS at h
  by_cases hm : searchLit totalspinMarker line
  · rw [if_pos hm] at h
    cases hg : (pySplit line).getLast? with
    | none => rw [hg] at h; exact absurd h (by simp)
    | some t =>
      rw [hg] at h
      dsimp only at h
      cases hp : parseFloat t with
      | none => rw [hp] at h; exact absurd h (by simp)
      | some v =>
        rw [hp] at h
        dsimp only at h
        cases h
        exact ⟨rfl, rfl⟩
  · rw [if_neg hm] at h
    cases h
    exact ⟨rfl, rfl⟩

theorem handleContact_others {natoms : ℕ} {line : String} {ls : List String}
    {st : ScanState} {ls' : List String} {st' : ScanState}
    (h : handleContact natoms line ls st = .ok (ls', st')) :
    st'.dipoles = st.dipoles ∧ st'.totalS = st.totalS := by
  unfold handleContact at h
  by_cases hm : searchLit contactMarker line
  · rw [if_pos hm] at h
    cases hs : skipLines 3 ls with
    | error e => rw [hs] at h; exact absurd h (by simp)
    | ok ls₁ =>
      rw [hs] at h
      dsimp only at h
      cases hr : readContactLines natoms 0 ls₁ st.contacts with
      | error e => rw [hr] at h; exact absurd h (by simp)
      | ok p =>
        obtain ⟨cs, ls₂⟩ := p
        rw [hr] at h
        dsimp only at h
        cases h
        exact ⟨rfl, rfl⟩
  · rw [if_neg hm] at h
    cases h
    exact ⟨rfl, rfl⟩

theorem handleDipole_others {natoms : ℕ} {line : String} {ls : List String}
    {st : ScanState} {ls' : List String} {st' : ScanState}
    (h : handleDipole natoms line ls st = .ok (ls', st')) :
    st'.contacts = st.contacts ∧ st'.totalS = st.totalS := by
  unfold handleDipole at h
  by_cases hm : searchLit dipoleMarker line
  · rw [if_pos hm] at h
    cases hs : skipLines 3 ls with
    | error e => rw [hs] at h; exact absurd h (by simp)
    | ok ls₁ =>
      rw [hs] at h
      dsimp only at h
      cases hr : readDipoleLines natoms 0 ls₁ st.dipoles with
      | error e => rw [hr] at h; exact absurd h (by simp)
      | ok p =>
        obtain ⟨ds, ls₂⟩ := p
        rw [hr] at h
        dsimp only at h
        cases h
        exact ⟨rfl, rfl⟩
  · rw [if_neg hm] at h
    cases h
    exact ⟨rfl, rfl⟩

theorem mkTensor_symm (xx yy zz xy xz yz : ℚ) (i j : Fin 3) :
    mkTensor xx yy zz xy xz yz i j = mkTensor xx yy zz xy xz yz j i := by
  fin_cases i <;> fin_cases j <;> rfl

theorem parseDipLine_symm {l : String} {T : Tensor}
    (h : parseDipLine l = .ok T) (i j : Fin 3) : T i j = T j i := by
  unfold parseDipLine at h
  cases hm : (pySplit l).mapM parseFloat with
  | none => rw [hm] at h; exact absurd h (by simp)
  | some xs =>
    rw [hm] at h
    dsimp only at h
    by_cases h7 : 7 ≤ xs.length
    · rw [dif_pos h7] at h
      cases h
      exact mkTensor_symm _ _ _ _ _ _ i j
    · rw [dif_neg h7] at h
      exact absurd h (by simp)

theorem readDipoleLines_symm : ∀ (n k : ℕ) (ls : List String)
    (ds ds' : List Tensor) (ls' : List String),
    (∀ T ∈ ds, ∀ i j, T i j = T j i) →
    readDipoleLines n k ls ds = .ok (ds', ls') →
    ∀ T ∈ ds', ∀ i j, T i j = T j i := by
  intro n
  induction n with
  | zero =>
    intro k ls ds ds' ls' hinv h
    simp only [readDipoleLines] at h
    cases h
    exact hinv
  | succ n ih =>
    intro k ls ds ds' ls' hinv h
    cases ls with
    | nil => simp [readDipoleLines] at h
    | cons l ls =>
      cases hp : parseDipLine l with
      | error e => simp [readDipoleLines, hp] at h
      | ok T₀ =>
        simp only [readDipoleLines, hp] at h
        refine ih _ _ _ _ _ ?_ h
        intro T hT
        rcases List.mem_or_eq_of_mem_set hT with h' | h'
        · exact hinv T h'
        · subst h'
          exact parseDipLine_symm hp

theorem handleDipole_symm {natoms : ℕ} {line : String} {ls : List String}
    {st : ScanState} {ls' : List String} {st' : ScanState}
    (h : handleDipole natoms line ls st = .ok (ls', st'))
    (hinv : ∀ T ∈ st.dipoles, ∀ i j, T i j = T j i) :
    ∀ T ∈ st'.dipoles, ∀ i j, T i j = T j i := by
  unfold handleDipole at h
  by_cases hm : searchLit dipoleMarker line
  · rw [if_pos hm] at h
    cases hs : skipLines 3 ls with
    | error e => rw [hs] at h; exact absurd h (by simp)
    | ok ls₁ =>
      rw [hs] at h
      dsimp only at h
      cases hr : readDipoleLines natoms 0 ls₁ st.dipoles with
      | error e => rw [hr] at h; exact absurd h (by simp)
      | ok p =>
        obtain ⟨ds, ls₂⟩ := p
        rw [hr] at h
        dsimp only at h
        cases h
        exact readDipoleLines_symm _ _ _ _ _ _ hinv hr
  · rw [if_neg hm] at h
    cases h
    exact hinv

theorem scanStep_symm {natoms : ℕ} {line : String} {rest : List String}
    {st : ScanState} {rest' : List String} {st' : ScanState}
    (h : scanStep natoms line rest st = .ok (rest', st'))
    (hinv : ∀ T ∈ st.dipoles, ∀ i j, T i j = T j i) :
    ∀ T ∈ st'.dipoles, ∀ i j, T i j = T j i := by
  unfold scanStep at h
  cases h1 : stepTotalS line st with
  | error e => rw [h1] at h; exact absurd h (by simp [Bind.bind, Except.bind])
  | ok st₁ =>
    rw [h1] at h
    simp only [Bind.bind, Except.bind] at h
    cases h2 : handleContact natoms line rest st₁ with
    | error e => rw [h2] at h; exact absurd h (by simp)
    | ok p =>
      obtain ⟨rest₁, st₂⟩ := p
      rw [h2] at h
      have e1 := (stepTotalS_arrays h1).2
      have e2 := (handleContact_others h2).1
      exact handleDipole_symm h (by rw [e2, e1]; exact hinv)

theorem scanGo_symm (natoms : ℕ) : ∀ (fuel : ℕ) (ls : List String)
    (st st' : ScanState),
    (∀ T ∈ st.dipoles, ∀ i j, T i j = T j i) →
    scanGo natoms fuel ls st = .ok st' →
    ∀ T ∈ st'.dipoles, ∀ i j, T i j = T j i := by
  intro fuel
  induction fuel with
  | zero =>
    intro ls st st' hinv h
    cases ls with
    | nil => cases h; exact hinv
    | cons l ls => simp [scanGo] at h
  | succ f ih =>
    intro ls st st' hinv h
    cases ls with
    | nil => cases h; exact hinv
    | cons line rest =>
      simp only [scanGo] at h
      cases hs : scanStep natoms line rest st with
      | error e => rw [hs] at h; exact absurd h (by simp)
      | ok p =>
        obtain ⟨rest', st₁⟩ := p
        rw [hs] at h
        dsimp only at h
        exact ih _ _ _ (scanStep_symm hs hinv) h

theorem scanStep_dipoles_const {natoms : ℕ} {line : String}
    {rest : List String} {st : ScanState} {rest' : List String}
    {st' : ScanState} (hd : searchLit dipoleMarker line = false)
    (h : scanStep natoms line rest st = .ok (rest', st')) :
    st'.dipoles = st.dipoles := by
  unfold scanStep at h
  cases h1 : stepTotalS line st with
  | error e => rw [h1] at h; exact absurd h (by simp [Bind.bind, Except.bind])
  | ok st₁ =>
    rw [h1] at h
    simp only [Bind.bind, Except.bind] at h
    cases h2 : handleContact natoms line rest st₁ with
    | error e => rw [h2] at h; exact absurd h (by simp)
    | ok p =>
      obtain ⟨rest₁, st₂⟩ := p
      rw [h2] at h
      dsimp only at h
      rw [handleDipole_noMarker hd] at h
      cases h
      rw [(handleContact_others h2).1, (stepTotalS_arrays h1).2]

theorem scanGo_dipoles_const (natoms : ℕ) : ∀ (fuel : ℕ) (ls : List String)
    (st st' : ScanState),
    (∀ l ∈ ls, searchLit dipoleMarker l = false) →
    scanGo natoms fuel ls st = .ok st' → st'.dipoles = st.dipoles := by
  intro fuel
  induction fuel with
  | zero =>
    intro ls st st' hfree h
    cases ls with
    | nil => cases h; rfl
    | cons l ls => simp [scanGo] at h
  | succ f ih =>
    intro ls st st' hfree h
    cases ls with
    | nil => cases h; rfl
    | cons line rest =>
      simp only [scanGo] at h
      cases hs : scanStep natoms line rest st with
      | error e => rw [hs] at h; exact absurd h (by simp)
      | ok p =>
        obtain ⟨rest', st₁⟩ := p
        rw [hs] at h
        dsimp only at h
        have hline := hfree line (by simp)
        have hrest : ∀ l ∈ rest', searchLit dipoleMarker l = false := by
          intro l hl
          exact hfree l (List.mem_cons_of_mem _
            ((scanStep_suffix hs).subset hl))
        rw [ih _ _ _ hrest h, scanStep_dipoles_const hline hs]

theorem skipLines_short : ∀ (n : ℕ) (ls : List String), ls.length < n →
    (skipLines n ls).isOk = false := by
  intro n
  induction n with
  | zero => intro ls h; omega
  | succ n ih =>
    intro ls h
    cases ls with
    | nil => rfl
    | cons a ls =>
      simp only [skipLines]
      exact ih ls (by simpa using h)

theorem readContactLines_short : ∀ (n k : ℕ) (ls : List String)
    (cs : List ℚ), ls.length < n →
    (readContactLines n k ls cs).isOk = false := by
  intro n
  induction n with
  | zero => intro k ls cs h; omega
  | succ n ih =>
    intro k ls cs h
    cases ls with
    | nil => rfl
    | cons l ls =>
      cases hp : parseContactLine l with
      | error e => simp [readContactLines, hp, Except.isOk, Except.toBool]
      | ok v =>
        simp only [readContactLines, hp]
        exact ih _ _ _ (by simpa using h)

theorem readDipoleLines_short : ∀ (n k : ℕ) (ls : List String)
    (ds : List Tensor), ls.length < n →
    (readDipoleLines n k ls ds).isOk = false := by
  intro n
  induction n with
  | zero => intro k ls ds h; omega
  | succ n ih =>
    intro k ls ds h
    cases ls with
    | nil => rfl
    | cons l ls =>
      cases hp : parseDipLine l with
      | error e => simp [readDipoleLines, hp, Except.isOk, Except.toBool]
      | ok T =>
        simp only [readDipoleLines, hp]
        exact ih _ _ _ (by simpa using h)

theorem mapM_ok_length {α β : Type} (f : α → Except String β) :
    ∀ (ds : List α) (vs : List β), ds.mapM f = .ok vs →
    vs.length = ds.length := by
  intro ds
  induction ds with
  | nil =>
    intro vs h
    simp only [List.mapM_nil, pure, Except.pure, Except.ok.injEq] at h
    subst h
    rfl
  | cons d ds ih =>
    intro vs h
    rw [List.mapM_cons] at h
    simp only [Bind.bind, Except.bind] at h
    cases hd : f d with
    | error e => rw [hd] at h; exact absurd h (by simp)
    | ok b =>
      rw [hd] at h
      dsimp only at h
      cases hm : ds.mapM f with
      | error e => rw [hm] at h; exact absurd h (by simp)
      | ok bs =>
        rw [hm] at h
        simp only [pure, Except.pure, Except.ok.injEq] at h
        subst h
        simp [ih bs hm]

theorem mapM_none_of_mem {α β : Type} (f : α → Option β) :
    ∀ (ts : List α) (t : α), t ∈ ts → f t = none → ts.mapM f = none := by
  intro ts
  induction ts with
  | nil => intro t ht; simp at ht
  | cons a ts ih =>
    intro t ht hf
    rw [List.mapM_cons]
    rcases List.mem_cons.mp ht with h' | h'
    · subst h'
      simp [Bind.bind, Option.bind, hf]
    · cases hm2 : ts.mapM f with
      | none =>
        cases hfa : f a with
        | none => simp [Bind.bind, Option.bind, hfa]
        | some b => simp [Bind.bind, Option.bind, hfa, hm2]
      | some bs =>
        rw [ih t h' hf] at hm2
        exact absurd hm2 (by simp)

theorem take_succ_set {α : Type} : ∀ (cs : List α) (k : ℕ) (v : α),
    k < cs.length → (cs.set k v).take (k + 1) = cs.take k ++ [v] := by
  intro cs
  induction cs with
  | nil => intro k v h; simp at h
  | cons c cs ih =>
    intro k v h
    cases k with
    | zero => simp
    | succ k =>
      simp only [List.set_cons_succ, List.take_succ_cons, List.cons_append]
      rw [ih k v (by simpa using h)]

theorem setAll_eq {α : Type} : ∀ (vs cs : List α) (k : ℕ),
    cs.length = k + vs.length → setAll k vs cs = cs.take k ++ vs := by
  intro vs
  induction vs with
  | nil =>
    intro cs k h
    simp only [List.length_nil] at h
    simp only [setAll, List.append_nil]
    exact (List.take_of_length_le (by omega)).symm
  | cons v vs ih =>
    intro cs k h
    simp only [List.length_cons] at h
    simp only [setAll]
    rw [ih (cs.set k v) (k + 1) (by simp only [List.length_set]; omega)]
    rw [take_succ_set cs k v (by omega)]
    simp

theorem readContactLines_spec : ∀ (ds rest : List String) (k : ℕ)
    (cs vs : List ℚ), ds.mapM parseContactLine = .ok vs →
    readContactLines ds.length k (ds ++ rest) cs =
      .ok (setAll k vs cs, rest) := by
  intro ds
  induction ds with
  | nil =>
    intro rest k cs vs h
    simp only [List.mapM_nil, pure, Except.pure, Except.ok.injEq] at h
    subst h
    rfl
  | cons d ds ih =>
    intro rest k cs vs h
    rw [List.mapM_cons] at h
    simp only [Bind.bind, Except.bind] at h
    cases hd : parseContactLine d with
    | error e => rw [hd] at h; exact absurd h (by simp)
    | ok v =>
      rw [hd] at h
      dsimp only at h
      cases hm : ds.mapM parseContactLine with
      | error e => rw [hm] at h; exact absurd h (by simp)
      | ok vs' =>
        rw [hm] at h
        simp only [pure, Except.pure, Except.ok.injEq] at h
        subst h
        simp only [List.length_cons, List.cons_append, readContactLines, hd,
          setAll]
        exact ih rest (k + 1) (cs.set k v) vs' hm

theorem readDipoleLines_spec : ∀ (ds rest : List String) (k : ℕ)
    (dt : List Tensor) (Ts : List Tensor),
    ds.mapM parseDipLine = .ok Ts →
    readDipoleLines ds.length k (ds ++ rest) dt =
      .ok (setAll k Ts dt, rest) := by
  intro ds
  induction ds with
  | nil =>
    intro rest k dt Ts h
    simp only [List.mapM_nil, pure, Except.pure, Except.ok.injEq] at h
    subst h
    rfl
  | cons d ds ih =>
    intro rest k dt Ts h
    rw [List.mapM_cons] at h
    simp only [Bind.bind, Except.bind] at h
    cases hd : parseDipLine d with
    | error e => rw [hd] at h; exact absurd h (by simp)
    | ok T =>
      rw [hd] at h
      dsimp only at h
      cases hm : ds.mapM parseDipLine with
      | error e => rw [hm] at h; exact absurd h (by simp)
      | ok Ts' =>
        rw [hm] at h
        simp only [pure, Except.pure, Except.ok.injEq] at h
        subst h
        simp only [List.length_cons, List.cons_append, readDipoleLines, hd,
          setAll]
        exact ih rest (k + 1) (dt.set k T) Ts' hm

theorem handleContact_block {natoms : ℕ} {line s1 s2 s3 : String}
    {ds rest : List String} {st : ScanState} {vs : List ℚ}
    (hm : searchLit contactMarker line = true) (hlen : ds.length = natoms)
    (hp : ds.mapM parseContactLine = .ok vs) :
    handleContact natoms line (s1 :: s2 :: s3 :: (ds ++ rest)) st =
      .ok (rest, { st with contacts := setAll 0 vs st.contacts }) := by
  unfold handleContact
  rw [if_pos hm]
  have hskip : skipLines 3 (s1 :: s2 :: s3 :: (ds ++ rest)) =
      .ok (ds ++ rest) := rfl
  rw [hskip]
  dsimp only
  rw [← hlen, readContactLines_spec ds rest 0 st.contacts vs hp]

theorem handleDipole_block {natoms : ℕ} {line s1 s2 s3 : String}
    {ds rest : List String} {st : ScanState} {Ts : List Tensor}
    (hm : searchLit dipoleMarker line = true) (hlen : ds.length = natoms)
    (hp : ds.mapM parseDipLine = .ok Ts) :
    handleDipole natoms line (s1 :: s2 :: s3 :: (ds ++ rest)) st =
      .ok (rest, { st with dipoles := setAll 0 Ts st.dipoles }) := by
  unfold handleDipole
  rw [if_pos hm]
  have hskip : skipLines 3 (s1 :: s2 :: s3 :: (ds ++ rest)) =
      .ok (ds ++ rest) := rfl
  rw [hskip]
  dsimp only
  rw [← hlen, readDipoleLines_spec ds rest 0 st.dipoles Ts hp]

theorem scanStep_contactHdr {natoms : ℕ} {line s1 s2 s3 : String}
    {ds rest : List String} {st : ScanState} {vs : List ℚ}
    (h1 : searchLit totalspinMarker line = false)
    (h2 : searchLit contactMarker line = true)
    (h3 : searchLit dipoleMarker line = false)
    (hlen : ds.length = natoms) (hp : ds.mapM parseContactLine = .ok vs) :
    scanStep natoms line (s1 :: s2 :: s3 :: (ds ++ rest)) st =
      .ok (rest, { st with contacts := setAll 0 vs st.contacts }) := by
  unfold scanStep
  simp only [Bind.bind, Except.bind, stepTotalS_noMarker h1]
  rw [handleContact_block h2 hlen hp]
  exact handleDipole_noMarker h3 _ _ _

theorem scanStep_dipoleHdr {natoms : ℕ} {line s1 s2 s3 : String}
    {ds rest : List String} {st : ScanState} {Ts : List Tensor}
    (h1 : searchLit totalspinMarker line = false)
    (h2 : searchLit contactMarker line = false)
    (h3 : searchLit dipoleMarker line = true)
    (hlen : ds.length = natoms) (hp : ds.mapM parseDipLine = .ok Ts) :
    scanStep natoms line (s1 :: s2 :: s3 :: (ds ++ rest)) st =
      .ok (rest, { st with dipoles := setAll 0 Ts st.dipoles }) := by
  unfold scanStep
  simp only [Bind.bind, Except.bind, stepTotalS_noMarker h1]
  rw [handleContact_noMarker h2]
  exact handleDipole_block h3 hlen hp

theorem handleContact_short (natoms : ℕ) (line : String) (ls : List String)
    (st : ScanState) (hm : searchLit contactMarker line = true)
    (hlen : ls.length < natoms + 3) :
    (handleContact natoms line ls st).isOk = false := by
  unfold handleContact
  rw [if_pos hm]
  cases hs : skipLines 3 ls with
  | error e => rfl
  | ok ls₁ =>
    obtain ⟨hdrop, hle⟩ := skipLines_ok 3 ls ls₁ hs
    have hshort : ls₁.length < natoms := by
      subst hdrop
      simp only [List.length_drop]
      omega
    dsimp only
    cases hr : readContactLines natoms 0 ls₁ st.contacts with
    | error e => rfl
    | ok p =>
      have := readContactLines_short natoms 0 ls₁ st.contacts hshort
      rw [hr] at this
      exact absurd this (by simp [Except.isOk, Except.toBool])

theorem handleDipole_short (natoms : ℕ) (line : String) (ls : List String)
    (st : ScanState) (hm : searchLit dipoleMarker line = true)
    (hlen : ls.length < natoms + 3) :
    (handleDipole natoms line ls st).isOk = false := by
  unfold handleDipole
  rw [if_pos hm]
  cases hs : skipLines 3 ls with
  | error e => rfl
  | ok ls₁ =>
    obtain ⟨hdrop, hle⟩ := skipLines_ok 3 ls ls₁ hs
    have hshort : ls₁.length < natoms := by
      subst hdrop
      simp only [List.length_drop]
      omega
    dsimp only
    cases hr : readDipoleLines natoms 0 ls₁ st.dipoles with
    | error e => rfl
    | ok p =>
      have := readDipoleLines_short natoms 0 ls₁ st.dipoles hshort
      rw [hr] at this
      exact absurd this (by simp [Except.isOk, Except.toBool])

theorem scanStep_truncated (natoms : ℕ) (line : String) (tail : List String)
    (st : ScanState) (hts : searchLit totalspinMarker line = false)
    (hm : searchLit contactMarker line = true ∨
      searchLit dipoleMarker line = true)
    (hlen : tail.length < natoms + 3) :
    (scanStep natoms line tail st).isOk = false := by
  unfold scanStep
  simp only [Bind.bind, Except.bind, stepTotalS_noMarker hts]
  by_cases hc : searchLit contactMarker line
  · have hshort := handleContact_short natoms line tail st hc hlen
    cases hcc : handleContact natoms line tail st with
    | error e => rfl
    | ok p =>
      rw [hcc] at hshort
      exact absurd hshort (by simp [Except.isOk, Except.toBool])
  · have hc' : searchLit contactMarker line = false := by
      simpa using hc
    rw [handleContact_noMarker hc']
    dsimp only
    have hd : searchLit dipoleMarker line = true := hm.resolve_left hc
    have hshort := handleDipole_short natoms line tail st hd hlen
    cases hdd : handleDipole natoms line tail st with
    | error e => rfl
    | ok p =>
      rw [hdd] at hshort
      exact absurd hshort (by simp [Except.isOk, Except.toBool])

theorem scanLines_nil (natoms : ℕ) (st : ScanState) :
    scanLines natoms [] st = .ok st := rfl

theorem scanLines_cons (natoms : ℕ) (line : String) (rest : List String)
    (st : ScanState) :
    scanLines natoms (line :: rest) st =
      match scanStep natoms line rest st with
      | .error e => .error e
      | .ok (rest', st') => scanLines natoms rest' st' := by
  unfold scanLines
  simp only [List.length_cons, scanGo]
  cases h : scanStep natoms line rest st with
  | error e => rfl
  | ok p =>
    obtain ⟨rest', st'⟩ := p
    exact scanGo_fuel_irrel natoms rest.length rest'.length rest' st'
      (List.IsSuffix.length_le (scanStep_suffix h)) le_rfl

theorem scanLines_append_free (natoms : ℕ) : ∀ (pre ls : List String)
    (st : ScanState), (∀ l ∈ pre, markerFree l = true) →
    scanLines natoms (pre ++ ls) st = scanLines natoms ls st := by
  intro pre
  induction pre with
  | nil => intro ls st _; rfl
  | cons p pre ih =>
    intro ls st hfree
    rw [List.cons_append, scanLines_cons, scanStep_free (hfree p (by simp))]
    exact ih ls st (fun l hl => hfree l (by simp [hl]))

theorem synthesize_eq {contacts : List ℚ} {dipoles : List Tensor} {i : ℤ}
    {γ : ℝ} {c : ℚ} {D : Tensor} (hc : pyGet contacts i = .ok c)
    (hD : pyGet dipoles i = .ok D) :
    synthesize contacts dipoles i γ = .ok (synthRecord c D γ) := by
  unfold synthesize
  rw [hc, hD]

theorem gamma_mu_pos : 0 < gamma_mu := by
  unfold gamma_mu
  have := Real.pi_pos
  positivity

theorem synthRecord_A_c (c : ℚ) (D : Tensor) (γ : ℝ) :
    (synthRecord c D γ).A_c = (c : ℝ) * γ := rfl

theorem synthRecord_A_dip (c : ℚ) (D : Tensor) (γ : ℝ) :
    (synthRecord c D γ).A_dip = fun i j => (D i j : ℝ) * γ := rfl

theorem synthRecord_A (c : ℚ) (D : Tensor) (γ : ℝ) :
    (synthRecord c D γ).A =
      fun i j => (D i j : ℝ) * γ + eye3 i j * ((c : ℝ) * γ) := rfl

theorem synthRecord_Bfield (c : ℚ) (D : Tensor) (γ : ℝ) :
    (synthRecord c D γ).Bfield =
      fun j => 0.5 * ((D 2 j : ℝ) * γ + eye3 2 j * ((c : ℝ) * γ)) := rfl

theorem synthRecord_B_magnitude (c : ℚ) (D : Tensor) (γ : ℝ) :
    (synthRecord c D γ).B_magnitude =
      Real.sqrt (∑ j, (synthRecord c D γ).Bfield j ^ 2) := rfl

theorem synthRecord_theta (c : ℚ) (D : Tensor) (γ : ℝ) :
    (synthRecord c D γ).theta =
      if (synthRecord c D γ).B_magnitude = 0 then none
      else if theta0 (synthRecord c D γ) > 90 then
        some (180 - theta0 (synthRecord c D γ))
      else some (theta0 (synthRecord c D γ)) := rfl

/-- C5: for every site tensor in the dipoles array returned by the extractor,
the tensor is symmetric: entry `(i,j)` equals entry `(j,i)`; the
off-diagonal pairs are written from the same source token
(`mkTensor` places `xy`, `xz`, `yz` at both mirror positions). -/
theorem c5_dipole_symmetry (natoms : ℕ) (report : List String)
    (st' : ScanState)
    (h : scanLines natoms report (initState natoms) = .ok st') :
    ∀ T ∈ st'.dipoles, ∀ i j, T i j = T j i := by
  refine scanGo_symm natoms report.length report (initState natoms) st' ?_ h
  intro T hT i j
  have hz : T = zeroTensor := List.eq_of_mem_replicate hT
  subst hz
  rfl

theorem c5_dipole_symmetry_witness :
    mkTensor 1 2 3 4 (9/2) 6 0 2 = mkTensor 1 2 3 4 (9/2) 6 2 0 :=
  c5_dipole_symmetry 1
    [" Dipolar hyperfine coupling parameters (MHz)", " ----", "  ion", " ----",
      "   1   1.0   2.0   3.0   4.0   4.5   6.0"]
    ⟨[0], [mkTensor 1 2 3 4 (9/2) 6], none⟩ (by decide)
    (mkTensor 1 2 3 4 (9/2) 6) (by simp) 0 2

/-- C7: a matched block header followed by too few lines before the end
of the report makes extraction fail (`isOk = false`), rather than return
partial or zero-filled arrays.  `tail.length < natoms + 2` is the counting used by the claim (two formatting lines plus `natoms` data lines); the code in
fact needs `natoms + 3` lines, so the hypothesis is within the failing
range. -/
theorem c7_truncated_block (natoms : ℕ) (pre : List String) (hdr : String)
    (tail : List String) (st : ScanState)
    (hpre : ∀ l ∈ pre, markerFree l = true)
    (hts : searchLit totalspinMarker hdr = false)
    (hm : searchLit contactMarker hdr = true ∨
      searchLit dipoleMarker hdr = true)
    (hlen : tail.length < natoms + 2) :
    (scanLines natoms (pre ++ hdr :: tail) st).isOk = false := by
  rw [scanLines_append_free natoms pre (hdr :: tail) st hpre, scanLines_cons]
  have h := scanStep_truncated natoms hdr tail st hts hm (by omega)
  cases hs : scanStep natoms hdr tail st with
  | error e => rfl
  | ok p =>
    rw [hs] at h
    exact absurd h (by simp [Except.isOk, Except.toBool])

theorem c7_truncated_block_witness :
    (scanLines 2
      [" Fermi contact (isotropic) hyperfine coupling parameter (MHz)",
        " ----", "  ion", " ----"] (initState 2)).isOk = false :=
  c7_truncated_block 2 []
    " Fermi contact (isotropic) hyperfine coupling parameter (MHz)"
    [" ----", "  ion", " ----"] (initState 2) (by simp) (by decide)
    (Or.inl (by decide)) (by decide)

/-- C3, counterexample: the claim says exactly two lines are skipped
after a matched header.  On `c3reportShort` (header, two formatting
lines, one data line) a two-skip extractor would read the data line and
succeed with contact value `5`; the code consumes a third line and then
fails on the exhausted report.  `c3reportFull`, with three formatting
lines, is the report on which the code does return `[5]`. -/
theorem c3_counterexample :
    (scanLines 1 c3reportShort (initState 1)).isOk = false ∧
      scanLines 1 c3reportFull (initState 1) = .ok ⟨[5], [zeroTensor], none⟩ :=
  ⟨by decide, by decide⟩

/-- C3, amended: on matching the contact header the extractor skips
exactly THREE following lines (separator, column header, separator), then
reads `natoms` data lines, taking the last whitespace-separated token of
each as the contact value for sites `0..natoms-1` in file order; the
dipolar header likewise skips exactly three lines. -/
theorem c3_amended (natoms : ℕ) (pre : List String)
    (ch d1 d2 d3 dh e1 e2 e3 : String) (cds dds : List String)
    (vs : List ℚ) (Ts : List Tensor)
    (hpre : ∀ l ∈ pre, markerFree l = true)
    (hch1 : searchLit totalspinMarker ch = false)
    (hch2 : searchLit contactMarker ch = true)
    (hch3 : searchLit dipoleMarker ch = false)
    (hdh1 : searchLit totalspinMarker dh = false)
    (hdh2 : searchLit contactMarker dh = false)
    (hdh3 : searchLit dipoleMarker dh = true)
    (hclen : cds.length = natoms) (hdlen : dds.length = natoms)
    (hcvs : cds.mapM parseContactLine = .ok vs)
    (hdTs : dds.mapM parseDipLine = .ok Ts) :
    scanLines natoms
        (pre ++ ch :: d1 :: d2 :: d3 ::
          (cds ++ dh :: e1 :: e2 :: e3 :: dds)) (initState natoms) =
      .ok ⟨vs, Ts, none⟩ := by
  have hvs : vs.length = natoms := by
    rw [mapM_ok_length _ _ _ hcvs, hclen]
  have hTs : Ts.length = natoms := by
    rw [mapM_ok_length _ _ _ hdTs, hdlen]
  rw [scanLines_append_free _ _ _ _ hpre, scanLines_cons]
  rw [scanStep_contactHdr hch1 hch2 hch3 hclen hcvs]
  dsimp only
  rw [show dds = dds ++ ([] : List String) from (List.append_nil dds).symm,
    scanLines_cons, scanStep_dipoleHdr hdh1 hdh2 hdh3 hdlen hdTs]
  dsimp only
  rw [scanLines_nil]
  have hc : setAll 0 vs (List.replicate natoms (0 : ℚ)) = vs := by
    rw [setAll_eq vs _ 0 (by simp [hvs])]
    simp
  have hd : setAll 0 Ts (List.replicate natoms zeroTensor) = Ts := by
    rw [setAll_eq Ts _ 0 (by simp [hTs])]
    simp
  simp [initState, hc, hd]

theorem c3_amended_witness :
    scanLines 1
        ([] ++ " Fermi contact (isotropic) hyperfine coupling parameter (MHz)" ::
          " ----" :: "  ion  A_tot" :: " ----" ::
          (["   1   -2.5"] ++
            " Dipolar hyperfine coupling parameters (MHz)" ::
            " ----" :: "  ion" :: " ----" :: ["   1   1.0   2.0   3.0   4.0   5.0   6.0"]))
        (initState 1) =
      .ok ⟨[-5/2], [mkTensor 1 2 3 4 5 6], none⟩ :=
  c3_amended 1 []
    " Fermi contact (isotropic) hyperfine coupling parameter (MHz)"
    " ----" "  ion  A_tot" " ----"
    " Dipolar hyperfine coupling parameters (MHz)" " ----" "  ion" " ----"
    ["   1   -2.5"] ["   1   1.0   2.0   3.0   4.0   5.0   6.0"]
    [-5/2] [mkTensor 1 2 3 4 5 6] (by simp) (by decide) (by decide)
    (by decide) (by decide) (by decide) (by decide) (by decide) (by decide)
    (by decide) (by decide)

/-- C4, counterexample: two reports that differ only in the value on the
total-spin marker line (`3.0` vs `7.0`) are parsed to scan states whose
`totalS` fields differ, yet `get_hyperfine` returns identical records:
the parsed total spin is not present in the returned record. -/
theorem c4_counterexample :
    scanLines 1 c4report1 (initState 1) = .ok ⟨[0], [zeroTensor], some 3⟩ ∧
    scanLines 1 c4report2 (initState 1) = .ok ⟨[0], [zeroTensor], some 7⟩ ∧
    get_hyperfine c4report1 1 (-1) = get_hyperfine c4report2 1 (-1) := by
  refine ⟨by decide, by decide, ?_⟩
  unfold get_hyperfine
  rw [show scanLines 1 c4report1 (initState 1) =
        .ok ⟨[0], [zeroTensor], some 3⟩ from by decide,
      show scanLines 1 c4report2 (initState 1) =
        .ok ⟨[0], [zeroTensor], some 7⟩ from by decide]

/-- C4, amended: on a matched total-spin line the extractor parses the
last whitespace-separated token as a floating value into the internal
variable `totalS`, but the value is dropped: the returned record is
built from the contacts and dipoles alone, so the result of
`get_hyperfine` is independent of the total spin. -/
theorem c4_amended :
    (∀ (line : String) (st : ScanState) (t : List Char) (v : ℚ),
       searchLit totalspinMarker line = true →
       (pySplit line).getLast? = some t → parseFloat t = some v →
       stepTotalS line st = .ok { st with totalS := some v })
    ∧ (∀ (r1 r2 : List String) (natoms : ℕ) (i : ℤ) (st₁ st₂ : ScanState),
       scanLines natoms r1 (initState natoms) = .ok st₁ →
       scanLines natoms r2 (initState natoms) = .ok st₂ →
       st₁.contacts = st₂.contacts → st₁.dipoles = st₂.dipoles →
       get_hyperfine r1 natoms i = get_hyperfine r2 natoms i) := by
  constructor
  · intro line st t v hm hg hp
    simp [stepTotalS, hm, hg, hp]
  · intro r1 r2 natoms i st₁ st₂ h1 h2 hc hd
    unfold get_hyperfine
    rw [h1, h2]
    dsimp only
    unfold synthesize
    rw [hc, hd]

theorem c4_amended_witness :
    stepTotalS (" Total magnetic moment S=   1.5") (initState 1) =
      .ok ⟨[0], [zeroTensor], some (3/2)⟩ :=
  c4_amended.1 (" Total magnetic moment S=   1.5") (initState 1)
    ("1.5".toList) (3/2) (by decide) (by decide) (by decide)

/-- C10: on a dipolar data line, `astype(float)` converts every
whitespace-separated token, so any non-numeric token (including the
leading site identifier) fails the parse and the extraction; when all
tokens are numeric and at least seven are present, the six tensor
components are taken from token positions 1 through 6, not from the last
six tokens (see the eight-token report, whose parsed tensor uses values
1..6, dropping the trailing 7). -/
theorem c10_dipolar_line_numeric :
    (∀ (l : String) (t : List Char), t ∈ pySplit l → parseFloat t = none →
       (parseDipLine l).isOk = false)
    ∧ (∀ (l : String) (xs : List ℚ) (h7 : 7 ≤ xs.length),
       (pySplit l).mapM parseFloat = some xs →
       parseDipLine l = .ok (mkTensor (xs.get ⟨1, by omega⟩)
         (xs.get ⟨2, by omega⟩) (xs.get ⟨3, by omega⟩)
         (xs.get ⟨4, by omega⟩) (xs.get ⟨5, by omega⟩)
         (xs.get ⟨6, by omega⟩)))
    ∧ (scanLines 1 c10badReport (initState 1)).isOk = false
    ∧ scanLines 1 c10extraReport (initState 1) =
        .ok ⟨[0], [mkTensor 1 2 3 4 5 6], none⟩ := by
  refine ⟨?_, ?_, by decide, by decide⟩
  · intro l t ht hp
    unfold parseDipLine
    rw [mapM_none_of_mem parseFloat (pySplit l) t ht hp]
    rfl
  · intro l xs h7 hm
    unfold parseDipLine
    rw [hm]
    dsimp only
    rw [dif_pos h7]

theorem c10_dipolar_line_numeric_witness :
    (parseDipLine (" ion   1.0   2.0   3.0   4.0   5.0   6.0")).isOk = false ∧
    parseDipLine (" 0 1 2 3 4 5 6 7") = .ok (mkTensor 1 2 3 4 5 6) := by
  constructor
  · exact c10_dipolar_line_numeric.1 (" ion   1.0   2.0   3.0   4.0   5.0   6.0")
      ("ion".toList) (by decide) (by decide)
  · rw [c10_dipolar_line_numeric.2.1 (" 0 1 2 3 4 5 6 7")
      [0, 1, 2, 3, 4, 5, 6, 7] (by decide) (by decide)]
    decide

/-- C8: a report containing no dipolar header leaves the dipolar tensor of every site at its all-zero default while extraction succeeds and
contact values are parsed normally when the contact header is present
(first conjunct: no dipolar marker anywhere implies the returned dipoles
are the zero tensors; second conjunct: a report with only a contact
block succeeds and returns the parsed contacts with all-zero dipoles). -/
theorem c8_missing_dipole_header :
    (∀ (natoms : ℕ) (report : List String) (st' : ScanState),
       (∀ l ∈ report, searchLit dipoleMarker l = false) →
       scanLines natoms report (initState natoms) = .ok st' →
       st'.dipoles = List.replicate natoms zeroTensor)
    ∧ (∀ (natoms : ℕ) (pre : List String) (ch s1 s2 s3 : String)
         (cds : List String) (vs : List ℚ),
       (∀ l ∈ pre, markerFree l = true) →
       searchLit totalspinMarker ch = false →
       searchLit contactMarker ch = true →
       searchLit dipoleMarker ch = false →
       cds.length = natoms → cds.mapM parseContactLine = .ok vs →
       scanLines natoms (pre ++ ch :: s1 :: s2 :: s3 :: cds)
           (initState natoms) =
         .ok ⟨vs, List.replicate natoms zeroTensor, none⟩) := by
  constructor
  · intro natoms report st' hfree h
    exact scanGo_dipoles_const natoms report.length report _ st' hfree h
  · intro natoms pre ch s1 s2 s3 cds vs hpre h1 h2 h3 hlen hp
    have hvs : vs.length = natoms := by
      rw [mapM_ok_length _ _ _ hp, hlen]
    rw [scanLines_append_free _ _ _ _ hpre,
      show cds = cds ++ ([] : List String) from (List.append_nil cds).symm,
      scanLines_cons, scanStep_contactHdr h1 h2 h3 hlen hp]
    dsimp only
    rw [scanLines_nil]
    have hc : setAll 0 vs (List.replicate natoms (0 : ℚ)) = vs := by
      rw [setAll_eq vs _ 0 (by simp [hvs])]
      simp
    simp [initState, hc]

theorem c8_missing_dipole_header_witness :
    ((⟨[0], [zeroTensor], some 2⟩ : ScanState).dipoles =
      List.replicate 1 zeroTensor) ∧
    scanLines 1
        ([] ++ " Fermi contact (isotropic) hyperfine coupling parameter (MHz)" ::
          " ----" :: "  ion  A_tot" :: " ----" :: ["   1   7.0"])
        (initState 1) =
      .ok ⟨[7], List.replicate 1 zeroTensor, none⟩ := by
  constructor
  · exact c8_missing_dipole_header.1 1
      [" number of electron      64.0  Total magnetic moment S=   2.0"]
      ⟨[0], [zeroTensor], some 2⟩ (by decide) (by decide)
  · exact c8_missing_dipole_header.2 1 []
      " Fermi contact (isotropic) hyperfine coupling parameter (MHz)"
      " ----" "  ion  A_tot" " ----" ["   1   7.0"] [7] (by simp)
      (by decide) (by decide) (by decide) (by decide) (by decide)

theorem synthRecord_Bfield_cast (c : ℚ) (D : Tensor) (γ : ℝ) (j : Fin 3) :
    (synthRecord c D γ).Bfield j =
      0.5 * (((D 2 j + (if (2 : Fin 3) = j then c else 0) : ℚ) : ℝ) * γ) := by
  rw [synthRecord_Bfield]
  unfold eye3
  by_cases hj : (2 : Fin 3) = j
  · simp only [if_pos hj]
    push_cast
    ring
  · simp only [if_neg hj]
    push_cast
    ring

theorem synthRecord_zero_mag (c : ℚ) (D : Tensor) (γ : ℝ)
    (hrow : ∀ j : Fin 3, D 2 j + (if (2 : Fin 3) = j then c else 0) = 0) :
    (synthRecord c D γ).B_magnitude = 0 := by
  have hB : ∀ j : Fin 3, (synthRecord c D γ).Bfield j = 0 := by
    intro j
    rw [synthRecord_Bfield_cast, hrow j]
    push_cast
    ring
  rw [synthRecord_B_magnitude]
  simp [hB]

/-- C2: for every contacts array, dipoles array, valid site index and
gyromagnetic ratio, the synthesizer forms
`combined = γ • dipoles[site] + identity(3) * (γ * contacts[site])`,
sets the field vector to `0.5` times row index 2 of the combined tensor,
and sets the field magnitude to the Euclidean norm of the field
vector. -/
theorem c2_synthesis (contacts : List ℚ) (dipoles : List Tensor) (i : ℤ)
    (γ : ℝ) (c : ℚ) (D : Tensor) (res : HyperfineResult)
    (hc : pyGet contacts i = .ok c) (hD : pyGet dipoles i = .ok D)
    (hres : synthesize contacts dipoles i γ = .ok res) :
    (res.A = fun r s => γ * (D r s : ℝ) +
        (1 : Matrix (Fin 3) (Fin 3) ℝ) r s * (γ * (c : ℝ)))
    ∧ res.Bfield = (fun j => (1 / 2 : ℝ) * res.A 2 j)
    ∧ res.B_magnitude =
        Real.sqrt (res.Bfield 0 ^ 2 + res.Bfield 1 ^ 2 +
          res.Bfield 2 ^ 2) := by
  rw [synthesize_eq hc hD] at hres
  injection hres with hres
  subst hres
  refine ⟨?_, ?_, ?_⟩
  · rw [synthRecord_A]
    funext r s
    rw [Matrix.one_apply]
    unfold eye3
    by_cases h : r = s <;> simp [h] <;> ring
  · rw [synthRecord_Bfield, synthRecord_A]
    funext j
    norm_num
  · rw [synthRecord_B_magnitude]
    congr 1
    rw [Fin.sum_univ_three]

theorem c2_synthesis_witness :
    ((synthRecord 1 zeroTensor 2).A = fun r s =>
        2 * ((zeroTensor r s : ℚ) : ℝ) +
          (1 : Matrix (Fin 3) (Fin 3) ℝ) r s * (2 * ((1 : ℚ) : ℝ)))
    ∧ (synthRecord 1 zeroTensor 2).Bfield =
        (fun j => (1 / 2 : ℝ) * (synthRecord 1 zeroTensor 2).A 2 j)
    ∧ (synthRecord 1 zeroTensor 2).B_magnitude =
        Real.sqrt ((synthRecord 1 zeroTensor 2).Bfield 0 ^ 2 +
          (synthRecord 1 zeroTensor 2).Bfield 1 ^ 2 +
          (synthRecord 1 zeroTensor 2).Bfield 2 ^ 2) :=
  c2_synthesis [1] [zeroTensor] 0 2 1 zeroTensor (synthRecord 1 zeroTensor 2)
    (by decide) (by decide) (synthesize_eq (by decide) (by decide))

/-- C9, counterexample: on a well-formed report whose contact value is
zero the computed field magnitude is exactly zero, yet `get_hyperfine`
returns an `.ok` record whose angle is the NaN placeholder (`none`)
produced by `0.0/0.0`: no computation error is propagated to the
caller. -/
theorem c9_counterexample :
    (get_hyperfine c9report 1 (-1)).map HyperfineResult.B_magnitude =
        .ok 0 ∧
      (get_hyperfine c9report 1 (-1)).map HyperfineResult.theta =
        .ok none := by
  have hok : get_hyperfine c9report 1 (-1) =
      synthesize [0] [zeroTensor] (-1) gamma_mu := by
    unfold get_hyperfine
    rw [show scanLines 1 c9report (initState 1) =
      .ok ⟨[0], [zeroTensor], none⟩ from by decide]
  rw [hok, synthesize_eq (c := 0) (D := zeroTensor) (by decide) (by decide)]
  have hmag := synthRecord_zero_mag 0 zeroTensor gamma_mu (by decide)
  refine ⟨?_, ?_⟩
  · simp [Except.map, hmag]
  · simp only [Except.map]
    rw [synthRecord_theta, if_pos hmag]

/-- C9, amended: when the computed field magnitude is exactly zero the
synthesizer does not propagate a computation error: it still returns the
result record, with the angle field set to the NaN placeholder
(`none`), silently. -/
theorem c9_degenerate_field (contacts : List ℚ) (dipoles : List Tensor)
    (i : ℤ) (γ : ℝ) (res : HyperfineResult)
    (hres : synthesize contacts dipoles i γ = .ok res)
    (hmag : res.B_magnitude = 0) : res.theta = none := by
  unfold synthesize at hres
  cases hc : pyGet contacts i with
  | error e => rw [hc] at hres; exact absurd hres (by simp)
  | ok c =>
    rw [hc] at hres
    cases hD : pyGet dipoles i with
    | error e => rw [hD] at hres; exact absurd hres (by simp)
    | ok D =>
      rw [hD] at hres
      dsimp only at hres
      injection hres with hres
      subst hres
      rw [synthRecord_theta, if_pos hmag]

theorem c9_degenerate_field_witness :
    (synthRecord 0 zeroTensor 1).theta = none :=
  c9_degenerate_field [0] [zeroTensor] 0 1 (synthRecord 0 zeroTensor 1)
    (synthesize_eq (by decide) (by decide))
    (synthRecord_zero_mag 0 zeroTensor 1 (by decide))

/-- C6, counterexample: the claim asserts `0 ≤ angle ≤ 90` for all
inputs, but a site whose combined tensor has an all-zero third row
(contact `2`, dipolar tensor with `zz = -2`, `γ = 1`) gives a zero
field magnitude, and the synthesizer returns the NaN placeholder
(`none`) instead of an angle in `[0, 90]`. -/
theorem c6_counterexample :
    (synthesize [2] [mkTensor 0 0 (-2) 0 0 0] 0 1).map
      HyperfineResult.theta = .ok none := by
  rw [synthesize_eq (c := 2) (D := mkTensor 0 0 (-2) 0 0 0)
    (by decide) (by decide)]
  have hmag := synthRecord_zero_mag 2 (mkTensor 0 0 (-2) 0 0 0) 1 (by decide)
  simp only [Except.map]
  rw [synthRecord_theta, if_pos hmag]

/-- C6, amended: whenever the synthesizer returns a defined angle (the
field magnitude is nonzero), that angle lies in `[0, 90]` and equals the
fold `min θ₀ (180 - θ₀)` of
`θ₀ = degrees(arccos(dot(field_vector, [0,0,1]) / field_magnitude))`;
when the field magnitude is zero the returned angle is NaN (`none`),
not a number in `[0, 90]`. -/
theorem c6_angle_folding (contacts : List ℚ) (dipoles : List Tensor)
    (i : ℤ) (γ : ℝ) (res : HyperfineResult) (t : ℝ)
    (hres : synthesize contacts dipoles i γ = .ok res)
    (ht : res.theta = some t) :
    0 ≤ t ∧ t ≤ 90 ∧ t = min (theta0 res) (180 - theta0 res) := by
  unfold synthesize at hres
  cases hc : pyGet contacts i with
  | error e => rw [hc] at hres; exact absurd hres (by simp)
  | ok c =>
    rw [hc] at hres
    cases hD : pyGet dipoles i with
    | error e => rw [hD] at hres; exact absurd hres (by simp)
    | ok D =>
      rw [hD] at hres
      dsimp only at hres
      injection hres with hres
      subst hres
      rw [synthRecord_theta] at ht
      by_cases hmag : (synthRecord c D γ).B_magnitude = 0
      · rw [if_pos hmag] at ht
        exact absurd ht (by simp)
      · rw [if_neg hmag] at ht
        have h0 : 0 ≤ theta0 (synthRecord c D γ) := by
          unfold theta0
          exact div_nonneg
            (mul_nonneg (by norm_num) (Real.arccos_nonneg _))
            Real.pi_pos.le
        have h180 : theta0 (synthRecord c D γ) ≤ 180 := by
          unfold theta0
          rw [div_le_iff₀ Real.pi_pos]
          have := Real.arccos_le_pi
            ((∑ j, (synthRecord c D γ).Bfield j * zAxis j) /
              (synthRecord c D γ).B_magnitude)
          nlinarith [Real.pi_pos]
        by_cases hgt : theta0 (synthRecord c D γ) > 90
        · rw [if_pos hgt] at ht
          injection ht with ht
          subst ht
          refine ⟨by linarith, by linarith, ?_⟩
          rw [min_eq_right (by linarith)]
        · rw [if_neg hgt] at ht
          injection ht with ht
          subst ht
          push_neg at hgt
          refine ⟨h0, hgt, ?_⟩
          rw [min_eq_left (by linarith)]

theorem c6_angle_folding_witness :
    0 ≤ (0 : ℝ) ∧ (0 : ℝ) ≤ 90 ∧ (0 : ℝ) =
      min (theta0 (synthRecord 0 (mkTensor 0 0 1 0 0 0) 2))
        (180 - theta0 (synthRecord 0 (mkTensor 0 0 1 0 0 0) 2)) := by
  have hB : ∀ j : Fin 3,
      (synthRecord 0 (mkTensor 0 0 1 0 0 0) 2).Bfield j =
        (![0, 0, 1] : Fin 3 → ℝ) j := by
    intro j
    rw [synthRecord_Bfield_cast]
    have key : ∀ jj : Fin 3,
        ((mkTensor 0 0 1 0 0 0 2 jj +
            (if (2 : Fin 3) = jj then (0 : ℚ) else 0) : ℚ) =
          if (2 : Fin 3) = jj then 1 else 0) := by decide
    rw [key j]
    by_cases hj : (2 : Fin 3) = j
    · rw [if_pos hj, ← hj]
      norm_num
    · rw [if_neg hj]
      fin_cases j <;> simp_all
  have hmag : (synthRecord 0 (mkTensor 0 0 1 0 0 0) 2).B_magnitude = 1 := by
    rw [synthRecord_B_magnitude, Fin.sum_univ_three, hB 0, hB 1, hB 2]
    norm_num
  have hdot : (∑ j, (synthRecord 0 (mkTensor 0 0 1 0 0 0) 2).Bfield j *
      zAxis j) = 1 := by
    rw [Fin.sum_univ_three, hB 0, hB 1, hB 2]
    norm_num [zAxis]
  have htheta0 : theta0 (synthRecord 0 (mkTensor 0 0 1 0 0 0) 2) = 0 := by
    unfold theta0
    rw [hdot, hmag]
    norm_num [Real.arccos_one]
  have ht : (synthRecord 0 (mkTensor 0 0 1 0 0 0) 2).theta = some 0 := by
    rw [synthRecord_theta, if_neg (by rw [hmag]; norm_num), htheta0]
    norm_num
  exact c6_angle_folding [0] [mkTensor 0 0 1 0 0 0] 0 2
    (synthRecord 0 (mkTensor 0 0 1 0 0 0) 2) 0
    (synthesize_eq (by decide) (by decide)) ht

theorem c1_scan : scanLines 1 c1report (initState 1) =
    .ok ⟨[-271/200], [c1T], none⟩ := by decide

theorem c1_result : get_hyperfine c1report 1 (-1) =
    .ok (synthRecord (-271/200) c1T gamma_mu) := by
  unfold get_hyperfine
  rw [c1_scan]
  exact synthesize_eq (by decide) (by decide)

theorem c1_r_eq : c1r = synthRecord (-271/200) c1T gamma_mu := by
  unfold c1r resultOf
  rw [c1_result]

theorem c1_Bfield0 : c1r.Bfield 0 = gamma_mu * (-77935 / 10000) := by
  rw [c1_r_eq, synthRecord_Bfield_cast]
  rw [show (c1T 2 0 + (if (2 : Fin 3) = 0 then (-271/200 : ℚ) else 0) : ℚ) =
    -15587/1000 from by decide]
  push_cast
  ring

theorem c1_Bfield1 : c1r.Bfield 1 = gamma_mu * (292765 / 10000) := by
  rw [c1_r_eq, synthRecord_Bfield_cast]
  rw [show (c1T 2 1 + (if (2 : Fin 3) = 1 then (-271/200 : ℚ) else 0) : ℚ) =
    58553/1000 from by decide]
  push_cast
  ring

theorem c1_Bfield2 : c1r.Bfield 2 = gamma_mu * (-226011 / 1000) := by
  rw [c1_r_eq, synthRecord_Bfield_cast]
  rw [show (c1T 2 2 + (if (2 : Fin 3) = 2 then (-271/200 : ℚ) else 0) : ℚ) =
    -452022/1000 from by decide]
  push_cast
  ring

theorem c1_mag : c1r.B_magnitude = gamma_mu * Real.sqrt c1N / 2000 := by
  have hmag : c1r.B_magnitude =
      Real.sqrt (c1r.Bfield 0 ^ 2 + c1r.Bfield 1 ^ 2 + c1r.Bfield 2 ^ 2) := by
    rw [c1_r_eq, synthRecord_B_magnitude, Fin.sum_univ_three, ← c1_r_eq]
  rw [hmag, c1_Bfield0, c1_Bfield1, c1_Bfield2]
  have hsum : (gamma_mu * (-77935 / 10000)) ^ 2 +
      (gamma_mu * (292765 / 10000)) ^ 2 +
      (gamma_mu * (-226011 / 1000)) ^ 2 =
      gamma_mu ^ 2 * ((c1N : ℝ) * (1 / 2000) ^ 2) := by
    rw [show ((c1N : ℕ) : ℝ) = 207995296862 from by norm_num [c1N]]
    ring
  rw [hsum, Real.sqrt_mul (sq_nonneg gamma_mu),
    Real.sqrt_sq gamma_mu_pos.le,
    Real.sqrt_mul (Nat.cast_nonneg c1N), Real.sqrt_sq (by norm_num)]
  ring

theorem c1_sqrtN_bounds :
    456065 < Real.sqrt c1N ∧ Real.sqrt c1N < 456066 := by
  constructor
  · rw [show ((c1N : ℕ) : ℝ) = 207995296862 from by norm_num [c1N]]
    exact (Real.lt_sqrt (by norm_num)).mpr (by norm_num)
  · rw [show ((c1N : ℕ) : ℝ) = 207995296862 from by norm_num [c1N]]
    exact (Real.sqrt_lt' (by norm_num)).mpr (by norm_num)

/-- C1, counterexample: on the literal scenario report (matched contact
value `-1.355`, matched dipolar row
`(283.547, 167.119, -450.667, -28.734, -15.587, 58.553)`),
`get_hyperfine` succeeds but the first component of its field vector is
below `-1000` MHz — nowhere near the claimed `≈ -7.793`: the
expected outputs omit the `gamma_mu = 851.616/(2π)` scaling that the
code applies. -/
theorem c1_counterexample :
    (get_hyperfine c1report 1 (-1)).isOk = true ∧ c1r.Bfield 0 < -1000 := by
  constructor
  · rw [c1_result]
    rfl
  · rw [c1_Bfield0]
    unfold gamma_mu
    rw [div_mul_eq_mul_div, div_lt_iff₀ (by positivity)]
    nlinarith [Real.pi_lt_d2, Real.pi_gt_d2]

theorem c1_x : (∑ j, c1r.Bfield j * zAxis j) / c1r.B_magnitude =
    -(452022 / Real.sqrt c1N) := by
  rw [Fin.sum_univ_three, c1_Bfield0, c1_Bfield1, c1_Bfield2, c1_mag]
  rw [show zAxis 0 = 0 from rfl, show zAxis 1 = 0 from rfl,
    show zAxis 2 = 1 from rfl]
  have hγ := gamma_mu_pos.ne'
  have hs : Real.sqrt c1N ≠ 0 :=
    (lt_trans (show (0 : ℝ) < 456065 by norm_num) c1_sqrtN_bounds.1).ne'
  field_simp
  ring

set_option maxHeartbeats 2000000 in
theorem c1_arccos_bounds :
    7.5 * Real.pi / 180 < Real.arccos (452022 / Real.sqrt c1N) ∧
    Real.arccos (452022 / Real.sqrt c1N) < 7.7 * Real.pi / 180 := by
  obtain ⟨hs1, hs2⟩ := c1_sqrtN_bounds
  have hspos : (0 : ℝ) < Real.sqrt c1N := lt_trans (by norm_num) hs1
  set y : ℝ := 452022 / Real.sqrt c1N with hy
  have hylo : (452022 : ℝ) / 456066 < y := by
    rw [hy]
    exact div_lt_div_of_pos_left (by norm_num) hspos hs2
  have hyhi : y < 452022 / 456065 := by
    rw [hy]
    exact div_lt_div_of_pos_left (by norm_num) (by norm_num) hs1
  have hy0 : (0 : ℝ) < y := lt_trans (by norm_num) hylo
  have hy1 : y < 1 := lt_trans hyhi (by norm_num)
  have hpi1 := Real.pi_gt_d6
  have hpi2 := Real.pi_lt_d6
  set b77 : ℝ := 7.7 * Real.pi / 180 with hb77
  set b75 : ℝ := 7.5 * Real.pi / 180 with hb75
  have hb77lo : (0.1343903 : ℝ) < b77 := by rw [hb77]; nlinarith
  have hb77hi : b77 < 0.1343904 := by rw [hb77]; nlinarith
  have hb75lo : (0.1308996 : ℝ) < b75 := by rw [hb75]; nlinarith
  have hb75hi : b75 < 0.1308998 := by rw [hb75]; nlinarith
  have hb77abs : |b77| ≤ 1 := by
    rw [abs_of_pos (by nlinarith)]
    nlinarith
  have hb75abs : |b75| ≤ 1 := by
    rw [abs_of_pos (by nlinarith)]
    nlinarith
  have h77 : Real.cos b77 ≤ 1 - b77 ^ 2 / 2 + |b77| ^ 4 * (5 / 96) := by
    have := (abs_le.mp (Real.cos_bound hb77abs)).2
    linarith
  have h75 : 1 - b75 ^ 2 / 2 - |b75| ^ 4 * (5 / 96) ≤ Real.cos b75 := by
    have := (abs_le.mp (Real.cos_bound hb75abs)).1
    linarith
  rw [abs_of_pos (by nlinarith)] at h77
  rw [abs_of_pos (by nlinarith)] at h75
  have hb77sq : (0.01806075 : ℝ) < b77 ^ 2 := by nlinarith
  have hb77sq2 : b77 ^ 2 < 0.0180608 := by nlinarith
  have hb77q : b77 ^ 4 < 0.000326199 := by
    nlinarith [sq_nonneg b77, hb77sq2]
  have hcos77 : Real.cos b77 < 0.991 := by nlinarith
  have hb75sq : b75 ^ 2 < 0.01713476 := by nlinarith
  have hb75q : b75 ^ 4 < 0.0002936 := by
    nlinarith [sq_nonneg b75, hb75sq]
  have hcos75 : (0.9914 : ℝ) < Real.cos b75 := by nlinarith
  have hyc77 : Real.cos b77 < y :=
    lt_trans hcos77 (lt_trans (by norm_num) hylo)
  have hyc75 : y < Real.cos b75 :=
    lt_trans (lt_trans hyhi (by norm_num)) hcos75
  have hca : Real.cos (Real.arccos y) = y :=
    Real.cos_arccos (by linarith) hy1.le
  have hamem : Real.arccos y ∈ Set.Icc 0 Real.pi :=
    ⟨Real.arccos_nonneg y, Real.arccos_le_pi y⟩
  have hb77mem : b77 ∈ Set.Icc 0 Real.pi :=
    ⟨by nlinarith, by rw [hb77]; nlinarith [Real.pi_pos]⟩
  have hb75mem : b75 ∈ Set.Icc 0 Real.pi :=
    ⟨by nlinarith, by rw [hb75]; nlinarith [Real.pi_pos]⟩
  constructor
  · exact (Real.strictAntiOn_cos.lt_iff_lt hamem hb75mem).mp
      (by rw [hca]; exact hyc75)
  · exact (Real.strictAntiOn_cos.lt_iff_lt hb77mem hamem).mp
      (by rw [hca]; exact hyc77)

theorem c1_theta_val :
    c1r.theta =
      some (180 * Real.arccos (452022 / Real.sqrt c1N) / Real.pi) := by
  have hmagpos : 0 < c1r.B_magnitude := by
    rw [c1_mag]
    exact div_pos
      (mul_pos gamma_mu_pos
        (lt_trans (show (0 : ℝ) < 456065 by norm_num) c1_sqrtN_bounds.1))
      (by norm_num)
  have ht : c1r.theta =
      if theta0 c1r > 90 then some (180 - theta0 c1r)
      else some (theta0 c1r) := by
    conv_lhs => rw [c1_r_eq]
    rw [synthRecord_theta, if_neg (by rw [← c1_r_eq]; exact hmagpos.ne'),
      ← c1_r_eq]
  set a := Real.arccos (452022 / Real.sqrt c1N) with ha
  have hth0 : theta0 c1r = 180 * (Real.pi - a) / Real.pi := by
    unfold theta0
    rw [c1_x, ha, Real.arccos_neg]
  obtain ⟨ha75, ha77⟩ := c1_arccos_bounds
  have hpi := Real.pi_pos
  have hagt : theta0 c1r > 90 := by
    rw [hth0, gt_iff_lt, lt_div_iff₀ hpi]
    nlinarith [ha77, Real.pi_gt_d6]
  rw [ht, if_pos hagt, hth0]
  congr 1
  field_simp
  ring

/-- C1, amended: extraction followed by synthesis with
`gamma_mu = 851.616/(2π)` on the literal scenario (matched contact value
`-1.355`, matched dipolar row
`(283.547, 167.119, -450.667, -28.734, -15.587, 58.553)`) produces
`field_vector = gamma_mu * [-7.7935, 29.2765, -226.011]` MHz, that is,
`gamma_mu` times the claimed components (≈ `[-1056.3, 3968.1, -30633.3]`),
`field_magnitude = gamma_mu * sqrt(207995296862)/2000`, which lies
between `gamma_mu * 228.03` and `gamma_mu * 228.04` (≈ `30907`, i.e.
`gamma_mu` times the claimed `≈ 228.0`), and an angle that is defined
and lies strictly between `7.5` and `7.7` degrees, confirming the
claimed `≈ 7.6` degrees. -/
theorem c1_literal_scenario :
    c1r.Bfield 0 = gamma_mu * (-77935 / 10000) ∧
    c1r.Bfield 1 = gamma_mu * (292765 / 10000) ∧
    c1r.Bfield 2 = gamma_mu * (-226011 / 1000) ∧
    c1r.B_magnitude = gamma_mu * Real.sqrt c1N / 2000 ∧
    gamma_mu * 228.03 < c1r.B_magnitude ∧
    c1r.B_magnitude < gamma_mu * 228.04 ∧
    c1r.theta.isSome = true ∧
    7.5 < c1r.theta.getD 0 ∧ c1r.theta.getD 0 < 7.7 := by
  obtain ⟨hs1, hs2⟩ := c1_sqrtN_bounds
  have hγ := gamma_mu_pos
  obtain ⟨ha75, ha77⟩ := c1_arccos_bounds
  have hpi := Real.pi_pos
  refine ⟨c1_Bfield0, c1_Bfield1, c1_Bfield2, c1_mag, ?_, ?_, ?_, ?_, ?_⟩
  · rw [c1_mag]
    have h := mul_lt_mul_of_pos_left hs1 hγ
    linarith
  · rw [c1_mag]
    have h := mul_lt_mul_of_pos_left hs2 hγ
    linarith
  · rw [c1_theta_val]
    rfl
  · rw [c1_theta_val]
    simp only [Option.getD_some]
    rw [lt_div_iff₀ hpi]
    linarith
  · rw [c1_theta_val]
    simp only [Option.getD_some]
    rw [div_lt_iff₀ hpi]
    linarith

end Muon
